import Mathlib

/-!
Shallow embedding of the sftp-s3 server core (an SFTP request handler over an
abstract storage backend, plus the in-memory reference backend), together with
proofs of the behavioural properties stated in the specification.

The embedding follows the Rust sources:
* `src/backend/mod.rs` — `normalize_path`, `BackendError`, `FileInfo`;
* `src/backend/memory.rs` — `MemoryBackend` (a map from normalized keys to blobs);
* `src/handle/mod.rs` — `HandleManager`, `HandleType`;
* `src/sftp_handler.rs` — the request handler (`close`, `readdir`, `read`,
  `write`, `fstat`) and the `BackendError → StatusCode` conversion.

Machine integers (`u64`, `u32`, `usize`) are modelled as `Nat`: the code never
relies on wrap-around (offsets and lengths are used as in-bounds indices, and
`u64 → usize` casts are lossless on the 64-bit targets the server supports).
Byte blobs are `List Nat`, strings are Lean `String` (Rust `&str` / `String`).
-/

namespace SftpS3

/-! ## Path normalization (`src/backend/mod.rs`, `normalize_path`) -/

/-- The trimming predicate of `path.trim_matches('/')`. -/
def isSlash (c : Char) : Bool := c = '/'

/-- Leading-edge half of Rust `str::trim_matches('/')`. -/
def trimLeftSlashes (l : List Char) : List Char := l.dropWhile isSlash

/-- Trailing-edge half of Rust `str::trim_matches('/')`. -/
def trimRightSlashes (l : List Char) : List Char := (l.reverse.dropWhile isSlash).reverse

/-- Rust `str::trim_matches('/')`: trim the character from both edges. -/
def trimSlashes (l : List Char) : List Char := trimRightSlashes (trimLeftSlashes l)

/-- `normalize_path` from `src/backend/mod.rs`: trim leading/trailing slashes;
an empty or `"."` result collapses to the empty root key. -/
def normalize_path (p : String) : String :=
  if trimSlashes p.toList = [] ∨ trimSlashes p.toList = ['.'] then ""
  else String.mk (trimSlashes p.toList)

/-! ### Trimming lemmas -/

theorem dropWhile_head_not {α : Type} (p : α → Bool) :
    ∀ (l : List α) (c : α), (l.dropWhile p).head? = some c → p c = false := by
  intro l
  induction l with
  | nil => intro c h; cases h
  | cons a t ih =>
    intro c h
    by_cases hp : p a
    · exact ih c (by simpa [List.dropWhile, hp] using h)
    · have ha : a = c := by simpa [List.dropWhile, hp] using h
      subst ha
      simpa using hp

theorem dropWhile_of_head_not {α : Type} (p : α → Bool) (l : List α)
    (h : ∀ c, l.head? = some c → p c = false) : l.dropWhile p = l := by
  cases l with
  | nil => rfl
  | cons a t =>
    have ha : p a = false := h a rfl
    simp [List.dropWhile, ha]

theorem dropWhile_idem {α : Type} (p : α → Bool) (l : List α) :
    (l.dropWhile p).dropWhile p = l.dropWhile p :=
  dropWhile_of_head_not p _ (dropWhile_head_not p l)

theorem head?_append_of_some {α : Type} {l₁ l₂ : List α} {c : α}
    (h : l₁.head? = some c) : (l₁ ++ l₂).head? = some c := by
  cases l₁ with
  | nil => cases h
  | cons a t => simpa using h

/-- `trimRightSlashes l` is an initial segment of `l`. -/
theorem trimRight_decomp (l : List Char) :
    ∃ t, l = trimRightSlashes l ++ t := by
  refine ⟨(l.reverse.takeWhile isSlash).reverse, ?_⟩
  unfold trimRightSlashes
  conv_lhs => rw [← List.reverse_reverse l,
    ← List.takeWhile_append_dropWhile (p := isSlash) (l := l.reverse)]
  rw [List.reverse_append]

theorem trimRight_idem (l : List Char) :
    trimRightSlashes (trimRightSlashes l) = trimRightSlashes l := by
  unfold trimRightSlashes
  rw [List.reverse_reverse, dropWhile_idem]

theorem trimSlashes_head (l : List Char) (c : Char)
    (h : (trimSlashes l).head? = some c) : isSlash c = false := by
  obtain ⟨t, ht⟩ := trimRight_decomp (trimLeftSlashes l)
  have h2 : (trimLeftSlashes l).head? = some c := by
    rw [ht]; exact head?_append_of_some h
  exact dropWhile_head_not isSlash l c h2

theorem getLast?_rev {α : Type} (l : List α) : l.reverse.getLast? = l.head? := by
  cases l with
  | nil => rfl
  | cons a t => simp

theorem trimSlashes_getLast (l : List Char) (c : Char)
    (h : (trimSlashes l).getLast? = some c) : isSlash c = false := by
  unfold trimSlashes trimRightSlashes at h
  rw [getLast?_rev] at h
  exact dropWhile_head_not isSlash _ c h

theorem trimSlashes_idem (l : List Char) :
    trimSlashes (trimSlashes l) = trimSlashes l := by
  have h1 : trimLeftSlashes (trimSlashes l) = trimSlashes l :=
    dropWhile_of_head_not isSlash _ (fun c hc => trimSlashes_head l c hc)
  show trimRightSlashes (trimLeftSlashes (trimSlashes l)) = trimSlashes l
  rw [h1]
  show trimRightSlashes (trimRightSlashes (trimLeftSlashes l)) = _
  rw [trimRight_idem]
  rfl

/-- Claim C9: path normalization is idempotent, and a non-empty normalized
path neither starts nor ends with `'/'`. -/
theorem normalize_path_idempotent_no_edge_slashes (p : String) :
    normalize_path (normalize_path p) = normalize_path p ∧
    (normalize_path p ≠ "" →
      (normalize_path p).toList.head? ≠ some '/' ∧
      (normalize_path p).toList.getLast? ≠ some '/') := by
  by_cases h : trimSlashes p.toList = [] ∨ trimSlashes p.toList = ['.']
  · have hz : normalize_path p = "" := by
      unfold normalize_path; rw [if_pos h]
    constructor
    · rw [hz]; rfl
    · intro hne; exact absurd hz hne
  · have hv : normalize_path p = String.mk (trimSlashes p.toList) := by
      unfold normalize_path; rw [if_neg h]
    have hts : (String.mk (trimSlashes p.toList)).toList = trimSlashes p.toList := rfl
    constructor
    · rw [hv]
      show (if trimSlashes (trimSlashes p.toList) = [] ∨
              trimSlashes (trimSlashes p.toList) = ['.'] then ""
            else String.mk (trimSlashes (trimSlashes p.toList))) =
          String.mk (trimSlashes p.toList)
      rw [trimSlashes_idem]
      exact if_neg h
    · intro _
      rw [hv]
      refine ⟨?_, ?_⟩
      · intro hc
        have := trimSlashes_head p.toList '/' (by simpa [hts] using hc)
        simp [isSlash] at this
      · intro hc
        have := trimSlashes_getLast p.toList '/' (by simpa [hts] using hc)
        simp [isSlash] at this

/-- Witness for C9 at the concrete input `"/foo//"`. -/
theorem normalize_path_idempotent_witness :
    normalize_path (normalize_path "/foo//") = normalize_path "/foo//" ∧
    ((normalize_path "/foo//").toList.head? ≠ some '/' ∧
     (normalize_path "/foo//").toList.getLast? ≠ some '/') :=
  ⟨(normalize_path_idempotent_no_edge_slashes "/foo//").1,
   (normalize_path_idempotent_no_edge_slashes "/foo//").2 (by decide)⟩

/-! ## Association-list model of the hash maps

Both `MemoryBackend.files` (keys: normalized path strings) and
`HandleManager.handles` (keys: `u64` ids) are `HashMap`s in the source.  We
model a map as an association list whose operations satisfy the map equations:
`insert` replaces the binding of an existing key, `erase` removes every binding
of the key (a `HashMap` holds at most one). -/

namespace AList

def find {κ α : Type} [DecidableEq κ] : List (κ × α) → κ → Option α
  | [], _ => none
  | (a, v) :: rest, k => if a = k then some v else find rest k

def insert {κ α : Type} [DecidableEq κ] : List (κ × α) → κ → α → List (κ × α)
  | [], k, v => [(k, v)]
  | (a, w) :: rest, k, v =>
      if a = k then (k, v) :: rest else (a, w) :: insert rest k v

def erase {κ α : Type} [DecidableEq κ] : List (κ × α) → κ → List (κ × α)
  | [], _ => []
  | (a, w) :: rest, k => if a = k then erase rest k else (a, w) :: erase rest k

theorem find_insert_self {κ α : Type} [DecidableEq κ] (s : List (κ × α)) (k : κ) (v : α) :
    find (insert s k v) k = some v := by
  induction s with
  | nil => simp [insert, find]
  | cons hd rest ih =>
    obtain ⟨a, w⟩ := hd
    by_cases h : a = k
    · simp [insert, h, find]
    · simp [insert, h, find, ih]

theorem find_insert_ne {κ α : Type} [DecidableEq κ] (s : List (κ × α)) (k : κ) (v : α)
    (k' : κ) (h : k ≠ k') : find (insert s k v) k' = find s k' := by
  induction s with
  | nil => simp [insert, find, h]
  | cons hd rest ih =>
    obtain ⟨a, w⟩ := hd
    by_cases ha : a = k
    · subst ha; simp [insert, find, h]
    · simp [insert, ha, find, ih]

theorem find_erase_self {κ α : Type} [DecidableEq κ] (s : List (κ × α)) (k : κ) :
    find (erase s k) k = none := by
  induction s with
  | nil => rfl
  | cons hd rest ih =>
    obtain ⟨a, w⟩ := hd
    by_cases h : a = k
    · simp [erase, h, ih]
    · simp [erase, h, find, ih]

theorem erase_of_find_none {κ α : Type} [DecidableEq κ] (s : List (κ × α)) (k : κ)
    (h : find s k = none) : erase s k = s := by
  induction s with
  | nil => rfl
  | cons hd rest ih =>
    obtain ⟨a, w⟩ := hd
    by_cases ha : a = k
    · simp [find, ha] at h
    · simp [find, ha] at h
      simp [erase, ha, ih h]

theorem any_insert {κ α : Type} [DecidableEq κ] (s : List (κ × α)) (k : κ) (v : α)
    (p : κ × α → Bool) (h : p (k, v) = true) : (insert s k v).any p = true := by
  induction s with
  | nil => simp [insert, h]
  | cons hd rest ih =>
    obtain ⟨a, w⟩ := hd
    by_cases ha : a = k
    · simp [insert, ha, h]
    · simp [insert, ha, List.any_cons, ih]

end AList

/-! ## Backend data model (`src/backend/mod.rs`) -/

/-- The closed error set of the storage contract. -/
inductive BackendError : Type
  | NotFound
  | PermissionDenied
  | AlreadyExists
  | NotADirectory
  | IsADirectory
  | DirectoryNotEmpty
  | Io (msg : String)
  | Other (msg : String)
deriving DecidableEq

/-- `Result<T, E>`; `BackendResult<T> = Result<T, BackendError>`. -/
inductive Res (ε α : Type) : Type
  | ok (a : α)
  | error (e : ε)
deriving DecidableEq

abbrev BackendResult (α : Type) : Type := Res BackendError α

/-- `FileInfo` metadata block (six fields plus `is_dir`). -/
structure FileInfo : Type where
  size : Nat
  is_dir : Bool
  permissions : Nat
  mtime : Nat
  atime : Nat
  uid : Nat
  gid : Nat
deriving DecidableEq

/-- `FileInfo::directory()`; `now` stands for `current_timestamp()`. -/
def FileInfo.directory (now : Nat) : FileInfo :=
  ⟨4096, true, 0o755, now, now, 1000, 1000⟩

/-- `FileInfo::directory_with_mtime(mtime)`. -/
def FileInfo.directory_with_mtime (mtime : Nat) : FileInfo :=
  ⟨4096, true, 0o755, mtime, mtime, 1000, 1000⟩

/-- `FileInfo::file(size)`; `now` stands for `current_timestamp()`. -/
def FileInfo.file (size now : Nat) : FileInfo :=
  ⟨size, false, 0o644, now, now, 1000, 1000⟩

/-- `FileInfo::file_with_mtime(size, mtime)`. -/
def FileInfo.file_with_mtime (size mtime : Nat) : FileInfo :=
  ⟨size, false, 0o644, mtime, mtime, 1000, 1000⟩

/-- `DirEntry` returned by `list_dir`. -/
structure DirEntry : Type where
  name : String
  attrs : FileInfo
deriving DecidableEq

/-- Rust `str::starts_with` on a string pattern, on the character level. -/
def charsStart : List Char → List Char → Bool
  | [], _ => true
  | _ :: _, [] => false
  | a :: t, b :: u => if a = b then charsStart t u else false

/-- `s.starts_with(pre)`. -/
def starts_with (s pre : String) : Bool := charsStart pre.toList s.toList

theorem charsStart_append {l m : List Char} : charsStart l (l ++ m) = true := by
  induction l with
  | nil => rfl
  | cons a t ih => simp [charsStart, ih]

/-! ## In-memory backend (`src/backend/memory.rs`)

`MemoryBackend` is a `HashMap<String, FileData>` behind a lock; a session sees
each operation atomically, so it is embedded as a pure function from the store
to the new store and the result.  `current_timestamp()` is passed in as `now`. -/

/-- `FileData` stored per key. -/
structure FileData : Type where
  content : List Nat
  mtime : Nat
deriving DecidableEq

abbrev Store : Type := List (String × FileData)

/-- The `KEEP_MARKER` constant. -/
def KEEP_MARKER : String := ".keep"

/-- `MemoryBackend::file_info`. -/
def mem_file_info (s : Store) (path : String) (now : Nat) : BackendResult FileInfo :=
  if normalize_path path = "" then .ok (FileInfo.directory now)
  else
    match AList.find s (normalize_path path) with
    | some d => .ok (FileInfo.file_with_mtime d.content.length d.mtime)
    | none =>
        if s.any (fun kv => starts_with kv.1 (normalize_path path ++ "/")) then
          .ok (FileInfo.directory now)
        else .error .NotFound

/-- `MemoryBackend::make_dir`: insert `normalized/KEEP_MARKER` unconditionally. -/
def mem_make_dir (s : Store) (path : String) (now : Nat) : BackendResult Unit × Store :=
  (.ok (), AList.insert s (normalize_path path ++ "/" ++ KEEP_MARKER) ⟨[], now⟩)

/-- `MemoryBackend::del_dir`: remove the keep marker only. -/
def mem_del_dir (s : Store) (path : String) : BackendResult Unit × Store :=
  (.ok (), AList.erase s (normalize_path path ++ "/" ++ KEEP_MARKER))

/-- `MemoryBackend::delete`. -/
def mem_delete (s : Store) (path : String) : BackendResult Unit × Store :=
  (.ok (), AList.erase s (normalize_path path))

/-- `MemoryBackend::rename`: move the binding when the source key exists,
silently do nothing when it does not. -/
def mem_rename (s : Store) (src dst : String) : BackendResult Unit × Store :=
  match AList.find s (normalize_path src) with
  | some d =>
      (.ok (), AList.insert (AList.erase s (normalize_path src)) (normalize_path dst) d)
  | none => (.ok (), s)

/-- `MemoryBackend::read_file`. -/
def mem_read_file (s : Store) (path : String) : BackendResult (List Nat) :=
  match AList.find s (normalize_path path) with
  | some d => .ok d.content
  | none => .error .NotFound

/-- `MemoryBackend::write_file`. -/
def mem_write_file (s : Store) (path : String) (content : List Nat) (now : Nat) :
    BackendResult Unit × Store :=
  (.ok (), AList.insert s (normalize_path path) ⟨content, now⟩)

/-! ### Claims about the in-memory backend -/

/-- Claim C8: write/read round-trip on the in-memory backend: writing blob `b`
at a normalized path `k` succeeds, and reading `k` back returns exactly `b`. -/
theorem mem_write_read_roundtrip (s : Store) (k : String) (b : List Nat) (now : Nat)
    (_hk : normalize_path k = k) :
    (mem_write_file s k b now).1 = .ok () ∧
    mem_read_file (mem_write_file s k b now).2 k = .ok b := by
  refine ⟨rfl, ?_⟩
  unfold mem_read_file mem_write_file
  rw [AList.find_insert_self]

/-- Witness for C8 at `s = []`, `k = "a.txt"`, `b = [1, 2, 3]`. -/
theorem mem_write_read_roundtrip_witness :
    normalize_path "a.txt" = "a.txt" ∧
    ((mem_write_file [] "a.txt" [1, 2, 3] 7).1 = .ok () ∧
     mem_read_file (mem_write_file [] "a.txt" [1, 2, 3] 7).2 "a.txt" = .ok [1, 2, 3]) :=
  ⟨by decide, mem_write_read_roundtrip [] "a.txt" [1, 2, 3] 7 (by decide)⟩

/-- Claim C10: `rename` with a source key missing from the store returns `Ok`
and leaves the store unchanged. -/
theorem mem_rename_missing_src_ok_unchanged (s : Store) (src dst : String)
    (h : AList.find s (normalize_path src) = none) :
    mem_rename s src dst = (.ok (), s) := by
  unfold mem_rename
  rw [h]

/-- Witness for C10: renaming the absent `"y"` over a one-file store. -/
theorem mem_rename_missing_src_witness :
    AList.find [("x", FileData.mk [1] 0)] (normalize_path "y") = none ∧
    mem_rename [("x", FileData.mk [1] 0)] "y" "z" = (.ok (), [("x", FileData.mk [1] 0)]) :=
  ⟨by decide, mem_rename_missing_src_ok_unchanged [("x", FileData.mk [1] 0)] "y" "z" (by decide)⟩

/-- Counterexample to claim C7 as stated: in the empty store the parent `"a"`
of `"a/b"` does not exist (`file_info` reports `NotFound`), yet `make_dir "a/b"`
succeeds with `Ok`. -/
theorem mem_make_dir_missing_parent_succeeds :
    mem_file_info ([] : Store) "a" 0 = .error .NotFound ∧
    (mem_make_dir ([] : Store) "a/b" 0).1 = .ok () := by
  constructor
  · decide
  · rfl

theorem string_append_marker_ne (n : String) : n ≠ n ++ "/" ++ KEEP_MARKER := by
  intro h
  have hd : n.data = n.data ++ ("/" : String).data ++ (KEEP_MARKER : String).data :=
    congrArg String.data h
  have hl := congrArg List.length hd
  have h1 : (("/" : String)).data.length = 1 := rfl
  have h5 : ((KEEP_MARKER : String)).data.length = 5 := rfl
  simp only [List.length_append, h1, h5] at hl
  omega

theorem starts_with_marker (n : String) :
    starts_with (n ++ "/" ++ KEEP_MARKER) (n ++ "/") = true := by
  unfold starts_with
  have hd : (n ++ "/" ++ KEEP_MARKER).toList = (n ++ "/").toList ++ (KEEP_MARKER : String).toList :=
    rfl
  rw [hd]
  exact charsStart_append

/-- Claim C7, amended: `make_dir` on the in-memory backend always succeeds —
parent existence is not checked — and afterwards `file_info` reports the
created path as a directory (for a non-root path not shadowed by a file). -/
theorem mem_make_dir_always_succeeds (s : Store) (p : String) (now t : Nat)
    (hn : normalize_path p ≠ "")
    (hf : AList.find s (normalize_path p) = none) :
    (mem_make_dir s p now).1 = .ok () ∧
    mem_file_info (mem_make_dir s p now).2 p t = .ok (FileInfo.directory t) := by
  refine ⟨rfl, ?_⟩
  unfold mem_file_info mem_make_dir
  rw [if_neg hn]
  have hne : normalize_path p ++ "/" ++ KEEP_MARKER ≠ normalize_path p :=
    fun h => string_append_marker_ne (normalize_path p) h.symm
  rw [AList.find_insert_ne _ _ _ _ hne, hf]
  have hany :
      (AList.insert s (normalize_path p ++ "/" ++ KEEP_MARKER) (FileData.mk [] now)).any
        (fun kv => starts_with kv.1 (normalize_path p ++ "/")) = true :=
    AList.any_insert _ _ _ _ (starts_with_marker (normalize_path p))
  rw [if_pos hany]

/-- Witness for C7 (amended) at `s = []`, `p = "a/b"`. -/
theorem mem_make_dir_always_succeeds_witness :
    normalize_path "a/b" ≠ "" ∧
    AList.find ([] : Store) (normalize_path "a/b") = none ∧
    ((mem_make_dir ([] : Store) "a/b" 3).1 = .ok () ∧
     mem_file_info (mem_make_dir ([] : Store) "a/b" 3).2 "a/b" 9 = .ok (FileInfo.directory 9)) :=
  ⟨by decide, by decide, mem_make_dir_always_succeeds [] "a/b" 3 9 (by decide) (by decide)⟩

/-! ## Protocol response types (`russh_sftp::protocol`)

Only the fields the handler constructs are modelled; the remaining
`FileAttributes` fields keep their `Default::default()` values in the source
and are omitted here. -/

inductive StatusCode : Type
  | Ok
  | Eof
  | NoSuchFile
  | PermissionDenied
  | Failure
  | BadMessage
  | NoConnection
  | ConnectionLost
  | OpUnsupported
deriving DecidableEq

/-- The `impl From<BackendError> for StatusCode` conversion in
`src/sftp_handler.rs`. -/
def StatusCode.ofBackendError : BackendError → StatusCode
  | .NotFound => .NoSuchFile
  | .PermissionDenied => .PermissionDenied
  | .AlreadyExists => .Failure
  | .NotADirectory => .NoSuchFile
  | .IsADirectory => .Failure
  | .DirectoryNotEmpty => .Failure
  | .Io _ => .Failure
  | .Other _ => .Failure

structure Status : Type where
  id : Nat
  status_code : StatusCode
  error_message : String
  language_tag : String
deriving DecidableEq

/-- `ok_status` from `src/sftp_handler.rs`. -/
def ok_status (id : Nat) : Status := ⟨id, .Ok, "Ok", "en"⟩

structure FileAttributes : Type where
  size : Option Nat
  permissions : Option Nat
  mtime : Option Nat
  atime : Option Nat
  uid : Option Nat
  gid : Option Nat
deriving DecidableEq

/-- `to_file_attributes` from `src/sftp_handler.rs`. -/
def to_file_attributes (info : FileInfo) : FileAttributes :=
  ⟨some info.size, some info.permissions, some info.mtime, some info.atime,
   some info.uid, some info.gid⟩

structure File : Type where
  filename : String
  longname : String
  attrs : FileAttributes
deriving DecidableEq

structure Name : Type where
  id : Nat
  files : List File
deriving DecidableEq

structure Data : Type where
  id : Nat
  data : List Nat
deriving DecidableEq

structure Attrs : Type where
  id : Nat
  attrs : FileAttributes
deriving DecidableEq

/-! ## Handle registry (`src/handle/mod.rs`) -/

/-- `HandleType`: the three variants of open-handle state. -/
inductive HandleType : Type
  | Dir (path : String) (read_done : Bool)
  | Read (path : String) (content : List Nat)
  | Write (path : String) (buffer : List Nat)
deriving DecidableEq

/-- Digit-run part of Rust `str::parse::<u64>()`: one or more ASCII digits
whose value fits in `u64`. -/
def parseDigits (ds : List Char) : Option Nat :=
  if ds = [] then none
  else if ds.all (fun c => c.isDigit) then
    if ds.foldl (fun a c => a * 10 + (c.toNat - 48)) 0 < 2 ^ 64 then
      some (ds.foldl (fun a c => a * 10 + (c.toNat - 48)) 0)
    else none
  else none

/-- Rust `str::parse::<u64>()`: an optional leading `'+'` sign followed by one
or more ASCII digits; overflow and any other character are errors. -/
def parseU64 (s : String) : Option Nat :=
  parseDigits (match s.toList with
    | '+' :: rest => rest
    | cs => cs)

/-- `HandleManager`: a map from `u64` ids to handle state plus the id counter.
Handler methods hold the whole manager, so the interior lock collapses to
plain state passing. -/
structure HandleManager : Type where
  handles : List (Nat × HandleType)
  next_id : Nat
deriving DecidableEq

/-- `HandleManager::get`: parse the token, then look the id up. -/
def HandleManager.get (hm : HandleManager) (token : String) : Option HandleType :=
  match parseU64 token with
  | some i => AList.find hm.handles i
  | none => none

/-- `HandleManager::update`: parse the token and replace the binding; a
non-numeric token is a silent no-op. -/
def HandleManager.update (hm : HandleManager) (token : String) (d : HandleType) :
    HandleManager :=
  match parseU64 token with
  | some i => ⟨AList.insert hm.handles i d, hm.next_id⟩
  | none => hm

/-- `HandleManager::remove`: parse the token and drop the binding, returning
the removed state. -/
def HandleManager.remove (hm : HandleManager) (token : String) :
    Option HandleType × HandleManager :=
  match parseU64 token with
  | some i => (AList.find hm.handles i, ⟨AList.erase hm.handles i, hm.next_id⟩)
  | none => (none, hm)

theorem get_update_self (hm : HandleManager) (token : String) (d x : HandleType)
    (h : hm.get token = some x) : (hm.update token d).get token = some d := by
  cases hp : parseU64 token with
  | none => simp [HandleManager.get, hp] at h
  | some i =>
      simp [HandleManager.get, HandleManager.update, hp, AList.find_insert_self]

theorem get_remove_none (hm : HandleManager) (token : String) :
    ((hm.remove token).2).get token = none := by
  cases hp : parseU64 token with
  | none => simp [HandleManager.get, HandleManager.remove, hp]
  | some i => simp [HandleManager.get, HandleManager.remove, hp, AList.find_erase_self]

theorem remove_of_get_none (hm : HandleManager) (token : String)
    (h : hm.get token = none) : (hm.remove token).2 = hm := by
  cases hp : parseU64 token with
  | none => simp [HandleManager.remove, hp]
  | some i =>
      have hf : AList.find hm.handles i = none := by
        simpa [HandleManager.get, hp] using h
      simp [HandleManager.remove, hp, AList.erase_of_find_none _ _ hf]

/-! ## SFTP request handler (`src/sftp_handler.rs`)

Each handler method is a pure function of the handle registry.  The shared
backend is abstracted by result functions for the operations the method may
invoke; the returned `List BackendCall` records exactly which backend calls
the method performed, in order. -/

/-- One backend invocation, with its arguments. -/
inductive BackendCall : Type
  | writeFile (path : String) (content : List Nat)
  | listDir (path : String)
  | fileInfo (path : String)
deriving DecidableEq

/-- `close`: flush a Write handle's buffer via `write_file` (propagating the
mapped error and keeping the handle on failure), then remove the handle and
reply `Ok`. -/
def SftpHandler.close (hm : HandleManager) (id : Nat) (token : String)
    (write_file : String → List Nat → BackendResult Unit) :
    Res StatusCode Status × HandleManager × List BackendCall :=
  match hm.get token with
  | some (.Write path buffer) =>
      match write_file path buffer with
      | .ok _ => (.ok (ok_status id), (hm.remove token).2, [.writeFile path buffer])
      | .error e => (.error (StatusCode.ofBackendError e), hm, [.writeFile path buffer])
  | _ => (.ok (ok_status id), (hm.remove token).2, [])

/-- `readdir`: on a fresh Dir handle list the directory, mark it `read_done`
and return all entries; on a consumed one reply `Eof`; otherwise `Failure`. -/
def SftpHandler.readdir (hm : HandleManager) (id : Nat) (token : String)
    (list_dir : String → BackendResult (List DirEntry)) :
    Res StatusCode Name × HandleManager × List BackendCall :=
  match hm.get token with
  | none => (.error .Failure, hm, [])
  | some (.Dir path read_done) =>
      if read_done then (.error .Eof, hm, [])
      else
        match list_dir path with
        | .error e => (.error (StatusCode.ofBackendError e), hm, [.listDir path])
        | .ok entries =>
            (.ok ⟨id, entries.map (fun e => ⟨e.name, "", to_file_attributes e.attrs⟩)⟩,
             hm.update token (.Dir path true), [.listDir path])
  | some _ => (.error .Failure, hm, [])

/-- `read`: serve `[offset, min(offset + len, size))` from the Read snapshot;
`Eof` at or past the end; `Failure` on other handles. -/
def SftpHandler.read (hm : HandleManager) (id : Nat) (token : String)
    (offset : Nat) (len : Nat) :
    Res StatusCode Data × HandleManager × List BackendCall :=
  match hm.get token with
  | none => (.error .Failure, hm, [])
  | some (.Read _ content) =>
      if content.length ≤ offset then (.error .Eof, hm, [])
      else
        (.ok ⟨id, (content.take (min (offset + len) content.length)).drop offset⟩,
         hm, [])
  | some _ => (.error .Failure, hm, [])

/-- `Vec::resize(n, 0)` at the two `write` call sites (both grow the buffer). -/
def growZero (buffer : List Nat) (n : Nat) : List Nat :=
  buffer ++ List.replicate (n - buffer.length) 0

/-- `buffer[start..start + data.len()].copy_from_slice(&data)`. -/
def writeOver (buffer : List Nat) (start : Nat) (data : List Nat) : List Nat :=
  buffer.take start ++ data ++ buffer.drop (start + data.length)

/-- The part of `write` after the first conditional resize: append when the
offset sits at the end of the buffer, otherwise resize to cover
`start + data.len()` and overwrite that range. -/
def writeTail (buffer : List Nat) (start : Nat) (data : List Nat) : List Nat :=
  if start = buffer.length then buffer ++ data
  else
    writeOver
      (if buffer.length < start + data.length then growZero buffer (start + data.length)
       else buffer)
      start data

/-- The buffer update performed by `write` on a Write handle. -/
def writeAtOffset (buffer : List Nat) (start : Nat) (data : List Nat) : List Nat :=
  writeTail (if buffer.length < start then growZero buffer start else buffer) start data

/-- The write-at-offset policy exactly as worded in the specification:
if `o > len(buf)` resize to `o` zero-padded then append `data`; if
`o == len(buf)` append `data`; otherwise resize to `o + n` zero-padded when
`o + n > len(buf)` and overwrite `[o, o + n)` with `data`. -/
def specWriteAt (buf : List Nat) (o : Nat) (data : List Nat) : List Nat :=
  if buf.length < o then (buf ++ List.replicate (o - buf.length) 0) ++ data
  else if o = buf.length then buf ++ data
  else
    (if buf.length < o + data.length
     then buf ++ List.replicate (o + data.length - buf.length) 0
     else buf).take o
    ++ data ++
    (if buf.length < o + data.length
     then buf ++ List.replicate (o + data.length - buf.length) 0
     else buf).drop (o + data.length)

theorem writeAtOffset_eq_spec (buf : List Nat) (o : Nat) (data : List Nat) :
    writeAtOffset buf o data = specWriteAt buf o data := by
  rcases Nat.lt_trichotomy buf.length o with h | h | h
  · have hlen : (growZero buf o).length = o := by
      unfold growZero
      rw [List.length_append, List.length_replicate]
      omega
    unfold writeAtOffset
    rw [if_pos h]
    unfold writeTail
    rw [hlen, if_pos rfl]
    unfold specWriteAt
    rw [if_pos h]
    unfold growZero
    rfl
  · have h1 : ¬ buf.length < o := by omega
    unfold writeAtOffset
    rw [if_neg h1]
    unfold writeTail
    rw [if_pos h.symm]
    unfold specWriteAt
    rw [if_neg h1, if_pos h.symm]
  · have h1 : ¬ buf.length < o := by omega
    have h2 : ¬ o = buf.length := by omega
    unfold writeAtOffset
    rw [if_neg h1]
    unfold writeTail
    rw [if_neg h2]
    unfold specWriteAt
    rw [if_neg h1, if_neg h2]
    unfold writeOver growZero
    rfl

/-- `write`: splice the data into the Write buffer at the offset and reply
`Ok`; `Failure` on unknown tokens or non-Write handles.  No backend call. -/
def SftpHandler.write (hm : HandleManager) (id : Nat) (token : String)
    (offset : Nat) (data : List Nat) :
    Res StatusCode Status × HandleManager × List BackendCall :=
  match hm.get token with
  | none => (.error .Failure, hm, [])
  | some (.Write path buffer) =>
      (.ok (ok_status id),
       hm.update token (.Write path (writeAtOffset buffer offset data)), [])
  | some _ => (.error .Failure, hm, [])

/-- `fstat`: Dir handles get synthetic directory attributes; Read/Write
handles take the in-memory size merged over a best-effort `file_info`.  The
registry is not modified. -/
def SftpHandler.fstat (hm : HandleManager) (id : Nat) (token : String)
    (file_info : String → BackendResult FileInfo) (now : Nat) :
    Res StatusCode Attrs × List BackendCall :=
  match hm.get token with
  | none => (.error .Failure, [])
  | some (.Dir _ _) => (.ok ⟨id, to_file_attributes (FileInfo.directory now)⟩, [])
  | some (.Read path content) =>
      (.ok ⟨id, to_file_attributes
        { (match file_info path with
           | .ok i => i
           | .error _ => FileInfo.file content.length now) with size := content.length }⟩,
       [.fileInfo path])
  | some (.Write path buffer) =>
      (.ok ⟨id, to_file_attributes
        { (match file_info path with
           | .ok i => i
           | .error _ => FileInfo.file buffer.length now) with size := buffer.length }⟩,
       [.fileInfo path])

/-! ### Claims about the request handler -/

/-- Claim C4: the backend-error-to-status conversion is total over the closed
error set and maps `NotFound ↦ NoSuchFile`, `PermissionDenied ↦
PermissionDenied`, `NotADirectory ↦ NoSuchFile`, and every other kind
(`AlreadyExists`, `IsADirectory`, `DirectoryNotEmpty`, `Io`, `Other`) to
`Failure`. -/
theorem backend_error_to_status_mapping :
    StatusCode.ofBackendError .NotFound = .NoSuchFile ∧
    StatusCode.ofBackendError .PermissionDenied = .PermissionDenied ∧
    StatusCode.ofBackendError .NotADirectory = .NoSuchFile ∧
    StatusCode.ofBackendError .AlreadyExists = .Failure ∧
    StatusCode.ofBackendError .IsADirectory = .Failure ∧
    StatusCode.ofBackendError .DirectoryNotEmpty = .Failure ∧
    (∀ msg, StatusCode.ofBackendError (.Io msg) = .Failure) ∧
    (∀ msg, StatusCode.ofBackendError (.Other msg) = .Failure) :=
  ⟨rfl, rfl, rfl, rfl, rfl, rfl, fun _ => rfl, fun _ => rfl⟩

/-- Claim C1: close on a Write handle performs exactly the backend call
`write_file(path, buffer)` and, when it succeeds, removes the handle and
replies `Ok`; close on a Dir or Read handle makes no backend call, removes the
handle and replies `Ok`; after removal the token is no longer registered. -/
theorem close_write_flush_then_remove (hm : HandleManager) (id : Nat) (token : String)
    (write_file : String → List Nat → BackendResult Unit) :
    (∀ path buffer, hm.get token = some (.Write path buffer) →
      (SftpHandler.close hm id token write_file).2.2 = [.writeFile path buffer] ∧
      (write_file path buffer = .ok () →
        SftpHandler.close hm id token write_file =
          (.ok (ok_status id), (hm.remove token).2, [.writeFile path buffer]))) ∧
    (∀ path rd, hm.get token = some (.Dir path rd) →
      SftpHandler.close hm id token write_file =
        (.ok (ok_status id), (hm.remove token).2, [])) ∧
    (∀ path content, hm.get token = some (.Read path content) →
      SftpHandler.close hm id token write_file =
        (.ok (ok_status id), (hm.remove token).2, [])) ∧
    ((hm.remove token).2).get token = none := by
  refine ⟨?_, ?_, ?_, get_remove_none hm token⟩
  · intro path buffer h
    constructor
    · cases hw : write_file path buffer with
      | ok a => simp [SftpHandler.close, h, hw]
      | error e => simp [SftpHandler.close, h, hw]
    · intro hw
      simp [SftpHandler.close, h, hw]
  · intro path rd h
    simp [SftpHandler.close, h]
  · intro path content h
    simp [SftpHandler.close, h]

/-- Witness for C1 on a registry holding the Write handle `"1"`. -/
theorem close_write_flush_then_remove_witness :
    (HandleManager.mk [(1, HandleType.Write "f" [7])] 2).get "1" =
      some (.Write "f" [7]) ∧
    SftpHandler.close (HandleManager.mk [(1, HandleType.Write "f" [7])] 2) 5 "1"
        (fun _ _ => .ok ()) =
      (.ok (ok_status 5),
       ((HandleManager.mk [(1, HandleType.Write "f" [7])] 2).remove "1").2,
       [.writeFile "f" [7]]) :=
  ⟨by decide,
   ((close_write_flush_then_remove (HandleManager.mk [(1, HandleType.Write "f" [7])] 2)
      5 "1" (fun _ _ => .ok ())).1 "f" [7] (by decide)).2 rfl⟩

/-- Claim C2: a write on a Write handle updates the buffer exactly per the
write-at-offset policy of the specification and replies `Ok`, making no
backend call. -/
theorem write_updates_buffer_per_policy (hm : HandleManager) (id : Nat) (token : String)
    (o : Nat) (data : List Nat) (path : String) (buffer : List Nat)
    (h : hm.get token = some (.Write path buffer)) :
    SftpHandler.write hm id token o data =
      (.ok (ok_status id),
       hm.update token (.Write path (specWriteAt buffer o data)), []) := by
  simp [SftpHandler.write, h, writeAtOffset_eq_spec]

/-- Witness for C2: a gap-producing write at offset `3` over the buffer `[1]`. -/
theorem write_updates_buffer_witness :
    (HandleManager.mk [(2, HandleType.Write "g" [1])] 3).get "2" =
      some (.Write "g" [1]) ∧
    SftpHandler.write (HandleManager.mk [(2, HandleType.Write "g" [1])] 3) 4 "2" 3 [9] =
      (.ok (ok_status 4),
       (HandleManager.mk [(2, HandleType.Write "g" [1])] 3).update "2"
         (.Write "g" (specWriteAt [1] 3 [9])), []) :=
  ⟨by decide,
   write_updates_buffer_per_policy (HandleManager.mk [(2, HandleType.Write "g" [1])] 3)
     4 "2" 3 [9] "g" [1] (by decide)⟩

/-- Claim C3: a read on a Read handle replies `Eof` at or past the snapshot
end, and otherwise returns exactly the bytes `[off, min(off + len, size))` of
the snapshot; the registry is untouched and no backend call is made. -/
theorem read_slices_snapshot (hm : HandleManager) (id : Nat) (token : String)
    (off len : Nat) (path : String) (content : List Nat)
    (h : hm.get token = some (.Read path content)) :
    (content.length ≤ off →
      SftpHandler.read hm id token off len = (.error .Eof, hm, [])) ∧
    (off < content.length →
      SftpHandler.read hm id token off len =
        (.ok ⟨id, (content.drop off).take (min (off + len) content.length - off)⟩,
         hm, [])) := by
  constructor
  · intro he
    simp [SftpHandler.read, h, he]
  · intro hlt
    have h1 : ¬ content.length ≤ off := by omega
    simp [SftpHandler.read, h, h1, List.drop_take]

/-- Witness for C3, the spec's read-across-EOF scenario: a 5-byte snapshot
read with `len = 10` at offset `3` yields the last two bytes, at offset `5`
yields `Eof`. -/
theorem read_slices_snapshot_witness :
    (HandleManager.mk [(1, HandleType.Read "r" [49, 50, 51, 52, 53])] 2).get "1" =
      some (.Read "r" [49, 50, 51, 52, 53]) ∧
    SftpHandler.read (HandleManager.mk [(1, HandleType.Read "r" [49, 50, 51, 52, 53])] 2)
        0 "1" 3 10 =
      (.ok ⟨0, [52, 53]⟩,
       HandleManager.mk [(1, HandleType.Read "r" [49, 50, 51, 52, 53])] 2, []) ∧
    SftpHandler.read (HandleManager.mk [(1, HandleType.Read "r" [49, 50, 51, 52, 53])] 2)
        0 "1" 5 10 =
      (.error .Eof,
       HandleManager.mk [(1, HandleType.Read "r" [49, 50, 51, 52, 53])] 2, []) :=
  ⟨by decide,
   (read_slices_snapshot (HandleManager.mk [(1, HandleType.Read "r" [49, 50, 51, 52, 53])] 2)
      0 "1" 3 10 "r" [49, 50, 51, 52, 53] (by decide)).2 (by decide),
   (read_slices_snapshot (HandleManager.mk [(1, HandleType.Read "r" [49, 50, 51, 52, 53])] 2)
      0 "1" 5 10 "r" [49, 50, 51, 52, 53] (by decide)).1 (by decide)⟩

/-- Claim C5: the first readdir on a Dir handle returns the complete listing
produced by `list_dir` and flips `read_done`; the token then maps to the
consumed state, on which any further readdir replies `Eof` with no backend
call. -/
theorem readdir_first_then_eof (hm : HandleManager) (id : Nat) (token : String)
    (path : String) (list_dir : String → BackendResult (List DirEntry)) :
    (∀ entries, hm.get token = some (.Dir path false) → list_dir path = .ok entries →
      SftpHandler.readdir hm id token list_dir =
        (.ok ⟨id, entries.map (fun e => ⟨e.name, "", to_file_attributes e.attrs⟩)⟩,
         hm.update token (.Dir path true), [.listDir path])) ∧
    (hm.get token = some (.Dir path false) →
      (hm.update token (.Dir path true)).get token = some (.Dir path true)) ∧
    (hm.get token = some (.Dir path true) →
      SftpHandler.readdir hm id token list_dir = (.error .Eof, hm, [])) := by
  refine ⟨?_, ?_, ?_⟩
  · intro entries h hl
    simp [SftpHandler.readdir, h, hl]
  · intro h
    exact get_update_self hm token _ _ h
  · intro h
    simp [SftpHandler.readdir, h]

/-- Witness for C5 on the Dir handle `"1"` over path `"d"`. -/
theorem readdir_first_then_eof_witness :
    SftpHandler.readdir (HandleManager.mk [(1, HandleType.Dir "d" false)] 2) 0 "1"
        (fun _ => .ok [⟨"x", FileInfo.directory_with_mtime 6⟩]) =
      (.ok ⟨0, [⟨"x", "", to_file_attributes (FileInfo.directory_with_mtime 6)⟩]⟩,
       (HandleManager.mk [(1, HandleType.Dir "d" false)] 2).update "1" (.Dir "d" true),
       [.listDir "d"]) ∧
    ((HandleManager.mk [(1, HandleType.Dir "d" false)] 2).update "1"
        (.Dir "d" true)).get "1" = some (.Dir "d" true) ∧
    SftpHandler.readdir (HandleManager.mk [(1, HandleType.Dir "d" true)] 2) 0 "1"
        (fun _ => .ok [⟨"x", FileInfo.directory_with_mtime 6⟩]) =
      (.error .Eof, HandleManager.mk [(1, HandleType.Dir "d" true)] 2, []) :=
  ⟨(readdir_first_then_eof (HandleManager.mk [(1, HandleType.Dir "d" false)] 2) 0 "1" "d"
      (fun _ => .ok [⟨"x", FileInfo.directory_with_mtime 6⟩])).1 _ (by decide) rfl,
   (readdir_first_then_eof (HandleManager.mk [(1, HandleType.Dir "d" false)] 2) 0 "1" "d"
      (fun _ => .ok [⟨"x", FileInfo.directory_with_mtime 6⟩])).2.1 (by decide),
   (readdir_first_then_eof (HandleManager.mk [(1, HandleType.Dir "d" true)] 2) 0 "1" "d"
      (fun _ => .ok [⟨"x", FileInfo.directory_with_mtime 6⟩])).2.2 (by decide)⟩

/-- Claim C6: on a token absent from the registry (unknown id or non-numeric
string) readdir, read, write and fstat reply `Failure` and leave the registry
untouched with no backend call, while close replies `Ok` and is a registry
no-op. -/
theorem unknown_token_failure_close_ok (hm : HandleManager) (id : Nat) (token : String)
    (write_file : String → List Nat → BackendResult Unit)
    (list_dir : String → BackendResult (List DirEntry))
    (file_info : String → BackendResult FileInfo) (now : Nat)
    (h : hm.get token = none) :
    SftpHandler.readdir hm id token list_dir = (.error .Failure, hm, []) ∧
    (∀ off len, SftpHandler.read hm id token off len = (.error .Failure, hm, [])) ∧
    (∀ off data, SftpHandler.write hm id token off data = (.error .Failure, hm, [])) ∧
    SftpHandler.fstat hm id token file_info now = (.error .Failure, []) ∧
    SftpHandler.close hm id token write_file = (.ok (ok_status id), hm, []) := by
  refine ⟨?_, ?_, ?_, ?_, ?_⟩
  · simp [SftpHandler.readdir, h]
  · intro off len; simp [SftpHandler.read, h]
  · intro off data; simp [SftpHandler.write, h]
  · simp [SftpHandler.fstat, h]
  · simp [SftpHandler.close, h, remove_of_get_none hm token h]

/-- Witness for C6 on the empty registry and the non-numeric token `"abc"`. -/
theorem unknown_token_witness :
    (HandleManager.mk [] 1).get "abc" = none ∧
    SftpHandler.readdir (HandleManager.mk [] 1) 7 "abc" (fun _ => .ok []) =
      (.error .Failure, HandleManager.mk [] 1, []) ∧
    SftpHandler.read (HandleManager.mk [] 1) 7 "abc" 0 4 =
      (.error .Failure, HandleManager.mk [] 1, []) ∧
    SftpHandler.write (HandleManager.mk [] 1) 7 "abc" 0 [1] =
      (.error .Failure, HandleManager.mk [] 1, []) ∧
    SftpHandler.fstat (HandleManager.mk [] 1) 7 "abc" (fun _ => .error .NotFound) 0 =
      (.error .Failure, []) ∧
    SftpHandler.close (HandleManager.mk [] 1) 7 "abc" (fun _ _ => .ok ()) =
      (.ok (ok_status 7), HandleManager.mk [] 1, []) := by
  have h : (HandleManager.mk [] 1).get "abc" = none := by decide
  have H := unknown_token_failure_close_ok (HandleManager.mk [] 1) 7 "abc"
    (fun _ _ => .ok ()) (fun _ => .ok []) (fun _ => .error .NotFound) 0 h
  exact ⟨h, H.1, H.2.1 0 4, H.2.2.1 0 [1], H.2.2.2.1, H.2.2.2.2⟩

end SftpS3
